import Mathlib

/-!
Verification model of the row-enrichment pipeline of the ai-general-tool
repository (package tools, command process-data).

The Go program drives an external per-row transform over a table with a
bounded worker pool, a single result-collecting goroutine, periodic
checkpoints, and cooperative cancellation.  The embedding below translates
the data model and the per-component logic into pure Lean functions; the
concurrency is captured by explicit schedule parameters:

  - done i      : whether the cancellation context is already done when the
                  task source reaches row i (one select per row);
  - choice i    : which branch the select statement picks at row i when both
                  the ctx.Done case and the channel send are ready (Go's
                  select picks uniformly among ready cases; true means the
                  ctx.Done branch was taken);
  - dropped i   : whether the worker that received task i observed ctx.Done
                  right after pulling it (or the task was left in the channel
                  when all workers exited) and therefore emitted no result.

The result collector is modelled twice, at two granularities: as folds of
the per-result body over the list of results the sink actually applied
(applyResult / applyStats), and as a small-step interpreter over the events
its select loop can wake up on (collectResultsRun).
-/

namespace ProcessData

/-- ProcessingTask from the source: a single row to process. -/
structure ProcessingTask where
  rowIndex : Nat
  rowData : List (String × String)
deriving Repr, DecidableEq

/-- ProcessingResult from the source: the result of processing a row.
The Go Error field (an error value, nil when absent) is an Option String. -/
structure ProcessingResult where
  rowIndex : Nat
  rowData : List (String × String)
  results : List (String × String)
  error : Option String
  tokens : Nat
deriving Repr, DecidableEq

/-- ProcessingStats from the source; StartTime and EstimatedCost are
wall-clock and display-only and are not part of any claim, so they are
omitted. Counters are Nat: they are only incremented by one at a time and
are bounded by the row count, far below the int32/int64 ranges. -/
structure ProcessingStats where
  totalRows : Nat
  completedRows : Nat
  failedRows : Nat
  totalTokens : Nat
deriving Repr, DecidableEq

/-- ColumnSpec from the source. -/
structure ColumnSpec where
  name : String
  dataType : String
deriving Repr, DecidableEq

/-- parseColumnSpecs: strings.Split on comma, optional ":" type hint via
strings.SplitN(part, ":", 2), defaulting the data type to "string". -/
def parseColumnSpecs (columnsStr : String) : List ColumnSpec :=
  (columnsStr.splitOn ",").map fun part0 =>
    let part := part0.trim
    if part.contains ':' then
      match part.splitOn ":" with
      | [] => { name := part, dataType := "string" }
      | n :: rest => { name := n.trim, dataType := (String.intercalate ":" rest).trim }
    else
      { name := part, dataType := "string" }

/-- getColumnNames from the source. -/
def getColumnNames (specs : List ColumnSpec) : List String :=
  specs.map fun spec => spec.name

/-- The rowData map built by the task source (and testSample):
rowData[header] = row[j] when j < len(row), else "". -/
def buildRowData (headers : List String) (row : List String) : List (String × String) :=
  headers.enum.map fun p => (p.2, row.getD p.1 "")

/-- Whether the task-source select at row i observed cancellation: the
ctx.Done branch is ready iff `done i`, and when both branches are ready the
scheduler pick `choice i` decides (true = took the ctx.Done branch). -/
def taskSourceObserved (done choice : Nat → Bool) (i : Nat) : Bool :=
  done i && choice i

/-- The row indices actually sent on the task channel.  The `break` in the
source's select exits only the select statement, not the row loop, so every
row gets its own select and is sent exactly when that select did not take
the ctx.Done branch. -/
def dispatchedIndices (n : Nat) (done choice : Nat → Bool) : List Nat :=
  (List.range n).filter fun i => !(taskSourceObserved done choice i)

/-- The body of processWorker for one task, given the outcome of the
processRow call: on error the Result carries the error and every declared
column is set to the "ERROR: ..." sentinel; on success it carries the
produced values and the token count (tokens stay 0 on error, since
processRow returns no usage then). -/
def mkWorkerResult (specs : List ColumnSpec) (task : ProcessingTask)
    (outcome : Except String (List (String × String) × Nat)) : ProcessingResult :=
  match outcome with
  | Except.error e =>
      { rowIndex := task.rowIndex, rowData := task.rowData,
        results := specs.map fun spec => (spec.name, "ERROR: " ++ e),
        error := some e, tokens := 0 }
  | Except.ok payload =>
      { rowIndex := task.rowIndex, rowData := task.rowData,
        results := payload.1, error := none, tokens := payload.2 }

/-- The results the worker pool sends on the result channel: one per
dispatched task that was not dropped by a worker observing ctx.Done after
pulling it.  `transform i` is the processRow outcome for row i (external
call, modelled as an oracle indexed by row). -/
def emittedResults (headers : List String) (rows : List (List String))
    (specs : List ColumnSpec) (done choice dropped : Nat → Bool)
    (transform : Nat → Except String (List (String × String) × Nat)) :
    List ProcessingResult :=
  ((dispatchedIndices rows.length done choice).filter fun i => !dropped i).map
    fun i => mkWorkerResult specs { rowIndex := i, rowData := buildRowData headers (rows.getD i []) }
      (transform i)

/-- No cancellation ever fires during the run. -/
def CancelFree (done : Nat → Bool) : Prop :=
  ∀ i, done i = false

/-- A worker can drop a pulled task only via its ctx.Done branch, so drops
require that cancellation fired at some point. -/
def DropsOnlyUnderCancel (done dropped : Nat → Bool) : Prop :=
  ∀ i, dropped i = true → ∃ j, done j = true

/-- The enriched-row buffer allocated before processing: a copy of each
original row followed by one empty cell per target column
(make([]string, len(row)+len(columnSpecs)) then copy). -/
def enrichedInit (rows : List (List String)) (specs : List ColumnSpec) :
    List (List String) :=
  rows.map fun row => row ++ List.replicate specs.length ""

/-- The result sink's per-row cell writes: for each target column i, set
row[len(headers)+i] to the produced value, or "" when the produced-values
map has no entry for that column.  Go panics when such an index is out of
range of the slice; List.set is the identity there, and the in-bounds side
condition is tracked separately. -/
def applyResultRow (startIdx : Nat) (specs : List ColumnSpec)
    (results : List (String × String)) (row : List String) : List String :=
  specs.enum.foldl (fun r p => r.set (startIdx + p.1) ((results.lookup p.2.name).getD "")) row

/-- The result sink's table update for one Result: mutate the row at the
Result's row index in place. -/
def applyResult (headers : List String) (specs : List ColumnSpec)
    (rows : List (List String)) (r : ProcessingResult) : List (List String) :=
  rows.set r.rowIndex (applyResultRow headers.length specs r.results (rows.getD r.rowIndex []))

/-- The result sink's statistics update for one Result: completed++ and
tokens accumulated when there is no error, failed++ (and nothing else)
otherwise. -/
def applyStats (s : ProcessingStats) (r : ProcessingResult) : ProcessingStats :=
  if r.error = none then
    { s with completedRows := s.completedRows + 1, totalTokens := s.totalTokens + r.tokens }
  else
    { s with failedRows := s.failedRows + 1 }

/-- The statistics created at pipeline start: TotalRows = len(rows) and all
counters zero. -/
def initStats (total : Nat) : ProcessingStats :=
  { totalRows := total, completedRows := 0, failedRows := 0, totalTokens := 0 }

/-- The statistics after the sink has applied a given list of results. -/
def sinkStats (total : Nat) (applied : List ProcessingResult) : ProcessingStats :=
  applied.foldl applyStats (initStats total)

/-- The output table after the sink has applied a given list of results. -/
def sinkTable (headers : List String) (specs : List ColumnSpec)
    (rows : List (List String)) (applied : List ProcessingResult) : List (List String) :=
  applied.foldl (applyResult headers specs) (enrichedInit rows specs)

/-- Whether a field must be quoted, following Go encoding/csv with the
default writer settings (Comma = ',', UseCRLF = false), to which saveCSV
delegates record encoding: quote a field that equals a backslash-dot, or
contains a comma, a double quote, a carriage return or a newline, or starts
with a space character. -/
def csvFieldNeedsQuotes (field : String) : Bool :=
  if field = "" then false
  else if field = "\\." then true
  else if field.any fun c => c = ',' || c = '"' || c = '\r' || c = '\n' then true
  else match field.data with
    | [] => false
    | c :: _ => c.isWhitespace

/-- One encoded CSV field (Go encoding/csv, default settings): quoted fields
double their inner quotes. -/
def csvField (field : String) : String :=
  if csvFieldNeedsQuotes field then "\"" ++ field.replace "\"" "\"\"" ++ "\""
  else field

/-- One encoded CSV record: comma-joined fields plus the default "\n"
terminator. -/
def csvRecord (fields : List String) : String :=
  String.intercalate "," (fields.map csvField) ++ "\n"

/-- The byte content saveCSV produces: the header record followed by one
record per data row. -/
def csvContent (headers : List String) (rows : List (List String)) : String :=
  csvRecord headers ++ String.join (rows.map csvRecord)

/-- columnIndexToLetter from the source: bijective base-26 spreadsheet
column names, built by prepending 'A'+index%26 and stepping to
index/26 - 1 until the index goes negative. -/
def columnIndexToLetter (n : Nat) : String :=
  if _h : n < 26 then
    String.mk [Char.ofNat (65 + n % 26)]
  else
    columnIndexToLetter (n / 26 - 1) ++ String.mk [Char.ofNat (65 + n % 26)]
termination_by n
decreasing_by
  have hd : n / 26 < n := Nat.div_lt_self (by omega) (by omega)
  omega

/-- The cell assignments saveExcel performs: headers go to row 1, data row i
goes to spreadsheet row i+2, with columns addressed by columnIndexToLetter. -/
def saveExcelCells (headers : List String) (rows : List (List String)) :
    List (String × String) :=
  (headers.enum.map fun p => (columnIndexToLetter p.1 ++ "1", p.2))
    ++ rows.enum.flatMap fun p => p.2.enum.map fun q => (columnIndexToLetter q.1 ++ toString (p.1 + 2), q.2)

/-- The table content of one checkpoint artifact (file metadata such as
xlsx timestamps is outside the model). -/
inductive CheckpointData where
  | csv (content : String)
  | excel (cells : List (String × String))
deriving Repr, DecidableEq

/-- The table content saveProgress writes: full headers are the original
headers followed by the target column names, and the artifact kind follows
the output file suffix exactly as in the source. -/
def checkpointContent (outputFile : String) (headers : List String)
    (specs : List ColumnSpec) (enrichedRows : List (List String)) : CheckpointData :=
  let fullHeaders := headers ++ getColumnNames specs
  if outputFile.endsWith ".csv" then CheckpointData.csv (csvContent fullHeaders enrichedRows)
  else CheckpointData.excel (saveExcelCells fullHeaders enrichedRows)

/-- The events the collectResults select loop can wake up on: a result
arriving, the 30-second save ticker firing, the result channel being closed,
or the cancellation context being done. -/
inductive SinkEvent where
  | result (r : ProcessingResult)
  | timerTick
  | chanClosed
  | ctxDone
deriving Repr, DecidableEq

/-- Whether an event ends the collectResults loop. -/
def SinkEvent.isTerminal : SinkEvent → Bool
  | SinkEvent.chanClosed => true
  | SinkEvent.ctxDone => true
  | _ => false

/-- The externally visible actions of collectResults: checkpoint writes
(with the content written) and the completion signal on doneChan. -/
inductive SinkAction where
  | save (content : CheckpointData)
  | signalDone
deriving Repr, DecidableEq

/-- The sink's loop state: the shared enriched-row buffer, the statistics,
and the processedCount local counter. -/
structure SinkState where
  rows : List (List String)
  stats : ProcessingStats
  processedCount : Nat
deriving Repr, DecidableEq

/-- The collectResults loop as a function of the sequence of events it wakes
up on.  A result updates the table and statistics, bumps processedCount and
checkpoints on every batchSize-th result; a ticker fire checkpoints the
current state; a closed result channel signals done and returns; a done
context checkpoints, signals done and returns. -/
def collectResultsRun (headers : List String) (specs : List ColumnSpec)
    (batchSize : Nat) (outputFile : String) :
    SinkState → List SinkEvent → SinkState × List SinkAction
  | s, [] => (s, [])
  | s, SinkEvent.result r :: es =>
      let s2 : SinkState :=
        { rows := applyResult headers specs s.rows r,
          stats := applyStats s.stats r,
          processedCount := s.processedCount + 1 }
      let tail := collectResultsRun headers specs batchSize outputFile s2 es
      if s2.processedCount % batchSize = 0 then
        (tail.1, SinkAction.save (checkpointContent outputFile headers specs s2.rows) :: tail.2)
      else tail
  | s, SinkEvent.timerTick :: es =>
      let tail := collectResultsRun headers specs batchSize outputFile s es
      (tail.1, SinkAction.save (checkpointContent outputFile headers specs s.rows) :: tail.2)
  | s, SinkEvent.chanClosed :: _ => (s, [SinkAction.signalDone])
  | s, SinkEvent.ctxDone :: _ =>
      (s, [SinkAction.save (checkpointContent outputFile headers specs s.rows),
           SinkAction.signalDone])

/-! ## Helper lemmas -/

/-- The value of a spreadsheet column letter in bijective base 26 ('A' = 1). -/
def letterVal (c : Char) : Nat := c.toNat - 64

/-- The column index (shifted by one) a letter string denotes in bijective
base 26. -/
def lettersVal (cs : List Char) : Nat :=
  cs.foldl (fun acc c => acc * 26 + letterVal c) 0

/-- lettersVal of a string's characters. -/
def stringVal (s : String) : Nat := lettersVal s.data

lemma lettersVal_append_singleton (cs : List Char) (c : Char) :
    lettersVal (cs ++ [c]) = lettersVal cs * 26 + letterVal c := by
  simp [lettersVal, List.foldl_append]

lemma char_toNat_ofNat_small {n : Nat} (h : n < 100) : (Char.ofNat n).toNat = n := by
  have hv : n.isValidChar := Or.inl (by omega)
  simp only [Char.ofNat, hv, dif_pos, Char.ofNatAux, Char.toNat]
  rfl

lemma stringVal_columnIndexToLetter (n : Nat) :
    stringVal (columnIndexToLetter n) = n + 1 := by
  induction n using Nat.strong_induction_on with
  | _ n ih =>
    rw [columnIndexToLetter]
    by_cases h : n < 26
    · simp only [h, dite_true]
      have hm : n % 26 = n := Nat.mod_eq_of_lt h
      have hc : (Char.ofNat (65 + n)).toNat = 65 + n := char_toNat_ofNat_small (by omega)
      simp only [stringVal, lettersVal, letterVal, hm, List.foldl_cons, List.foldl_nil, hc]
      omega
    · simp only [h, dite_false]
      have hq : n / 26 ≥ 1 := Nat.one_le_div_iff (by omega) |>.mpr (by omega)
      have hlt : n / 26 - 1 < n := by
        have hd : n / 26 < n := Nat.div_lt_self (by omega) (by omega)
        omega
      have ihv := ih (n / 26 - 1) hlt
      have hc : (Char.ofNat (65 + n % 26)).toNat = 65 + n % 26 :=
        char_toNat_ofNat_small (by have := Nat.mod_lt n (show 0 < 26 by omega); omega)
      have hdm : 26 * (n / 26) + n % 26 = n := Nat.div_add_mod n 26
      simp only [stringVal, String.data_append] at ihv ⊢
      rw [lettersVal_append_singleton, ihv]
      simp only [letterVal, hc]
      omega

lemma take_set_of_le {α : Type} (l : List α) (j k : Nat) (v : α) (h : k ≤ j) :
    (l.set j v).take k = l.take k := by
  induction l generalizing j k with
  | nil => simp
  | cons a t ih =>
    cases j with
    | zero =>
      have hk : k = 0 := by omega
      simp [hk]
    | succ j0 =>
      cases k with
      | zero => simp
      | succ k0 =>
        simp only [List.set, List.take]
        rw [ih j0 k0 (by omega)]

lemma applyStats_sum (s : ProcessingStats) (l : List ProcessingResult) :
    (l.foldl applyStats s).completedRows + (l.foldl applyStats s).failedRows
      = s.completedRows + s.failedRows + l.length := by
  induction l generalizing s with
  | nil => simp
  | cons r t ih =>
    rw [List.foldl_cons, ih]
    by_cases h : r.error = none <;> simp [applyStats, h] <;> omega

lemma lookup_map_const (specs : List ColumnSpec) (v : String) (spec : ColumnSpec)
    (h : spec ∈ specs) :
    (specs.map fun s0 => (s0.name, v)).lookup spec.name = some v := by
  induction specs with
  | nil => cases h
  | cons a t ih =>
    rcases List.mem_cons.mp h with h1 | h2
    · subst h1
      simp [List.lookup]
    · simp only [List.map_cons, List.lookup]
      cases hn : spec.name == a.name
      · simpa using ih h2
      · rfl

lemma collectResultsRun_append (headers : List String) (specs : List ColumnSpec)
    (batchSize : Nat) (outputFile : String) (s : SinkState)
    (es more : List SinkEvent) (hes : ∀ e ∈ es, e.isTerminal = false) :
    collectResultsRun headers specs batchSize outputFile s (es ++ more)
      = ((collectResultsRun headers specs batchSize outputFile
            (collectResultsRun headers specs batchSize outputFile s es).1 more).1,
         (collectResultsRun headers specs batchSize outputFile s es).2
           ++ (collectResultsRun headers specs batchSize outputFile
                 (collectResultsRun headers specs batchSize outputFile s es).1 more).2) := by
  induction es generalizing s with
  | nil => simp [collectResultsRun]
  | cons e t ih =>
    have he := hes e (List.mem_cons_self e t)
    have ht : ∀ x ∈ t, SinkEvent.isTerminal x = false :=
      fun x hx => hes x (List.mem_cons_of_mem e hx)
    cases e with
    | result r =>
      simp only [List.cons_append, collectResultsRun, List.append_eq]
      rw [ih _ ht]
      by_cases hb : (s.processedCount + 1) % batchSize = 0 <;> simp [hb]
    | timerTick =>
      simp only [List.cons_append, collectResultsRun, List.append_eq]
      rw [ih _ ht]
    | chanClosed => simp [SinkEvent.isTerminal] at he
    | ctxDone => simp [SinkEvent.isTerminal] at he

lemma mkWorkerResult_rowIndex (specs : List ColumnSpec) (task : ProcessingTask)
    (outcome : Except String (List (String × String) × Nat)) :
    (mkWorkerResult specs task outcome).rowIndex = task.rowIndex := by
  cases outcome <;> rfl

lemma emittedResults_map_rowIndex (headers : List String) (rows : List (List String))
    (specs : List ColumnSpec) (done choice dropped : Nat → Bool)
    (transform : Nat → Except String (List (String × String) × Nat)) :
    (emittedResults headers rows specs done choice dropped transform).map ProcessingResult.rowIndex
      = (dispatchedIndices rows.length done choice).filter fun i => !dropped i := by
  simp [emittedResults, List.map_map, Function.comp_def, mkWorkerResult_rowIndex]

lemma dispatchedIndices_nodup (n : Nat) (done choice : Nat → Bool) :
    (dispatchedIndices n done choice).Nodup :=
  List.Nodup.filter _ (List.nodup_range n)

lemma applyResultRow_length (startIdx : Nat) (specs : List ColumnSpec)
    (results : List (String × String)) (row : List String) :
    (applyResultRow startIdx specs results row).length = row.length := by
  unfold applyResultRow
  generalize specs.enum = ps
  induction ps generalizing row with
  | nil => rfl
  | cons p t ih => rw [List.foldl_cons, ih, List.length_set]

lemma applyResultRow_take (startIdx : Nat) (specs : List ColumnSpec)
    (results : List (String × String)) (row : List String) (k : Nat) (hk : k ≤ startIdx) :
    (applyResultRow startIdx specs results row).take k = row.take k := by
  unfold applyResultRow
  generalize specs.enum = ps
  induction ps generalizing row with
  | nil => rfl
  | cons p t ih =>
    rw [List.foldl_cons, ih]
    exact take_set_of_le row (startIdx + p.1) k _ (le_trans hk (Nat.le_add_right startIdx p.1))

lemma getD_set_ne {α : Type} (l : List α) (j i : Nat) (v d : α) (h : i ≠ j) :
    (l.set j v).getD i d = l.getD i d := by
  simp [List.getD, List.getElem?_set_ne (Ne.symm h)]

lemma getD_set_self {α : Type} (l : List α) (j : Nat) (v d : α) (h : j < l.length) :
    (l.set j v).getD j d = v := by
  simp [List.getD, List.getElem?_set_self, h]

lemma enrichedInit_getD (rows : List (List String)) (specs : List ColumnSpec) (i : Nat)
    (h : i < rows.length) :
    (enrichedInit rows specs).getD i [] = rows.getD i [] ++ List.replicate specs.length "" := by
  have h2 : i < (enrichedInit rows specs).length := by simpa [enrichedInit]
  rw [List.getD_eq_getElem _ _ h2, List.getD_eq_getElem _ _ h]
  simp [enrichedInit]

lemma sinkTable_fold_invariant (headers : List String) (specs : List ColumnSpec)
    (n : Nat) (applied : List ProcessingResult) (t : List (List String))
    (hlen : t.length = n)
    (hidx : ∀ r ∈ applied, r.rowIndex < n) :
    (applied.foldl (applyResult headers specs) t).length = n
    ∧ ∀ i, i < n →
        ((applied.foldl (applyResult headers specs) t).getD i []).take headers.length
          = (t.getD i []).take headers.length := by
  induction applied generalizing t with
  | nil => exact ⟨hlen, fun i _ => rfl⟩
  | cons r rest ih =>
    have hr : r.rowIndex < n := hidx r (List.mem_cons_self r rest)
    have hrest : ∀ x ∈ rest, x.rowIndex < n := fun x hx => hidx x (List.mem_cons_of_mem r hx)
    have h2 := ih (applyResult headers specs t r)
      (by simp [applyResult, List.length_set, hlen]) hrest
    refine ⟨by rw [List.foldl_cons]; exact h2.1, fun i hi => ?_⟩
    rw [List.foldl_cons, h2.2 i hi]
    unfold applyResult
    by_cases hieq : i = r.rowIndex
    · subst hieq
      rw [getD_set_self _ _ _ _ (by omega)]
      exact applyResultRow_take headers.length specs r.results (t.getD r.rowIndex [])
        headers.length le_rfl
    · rw [getD_set_ne _ _ _ _ _ hieq]

/-! ## Claim theorems -/

/-- Claim C2, evaluated on the code at the failing schedule.  The claim says
that once the task source observes cancellation, no further task is ever
sent.  In the source the ctx.Done branch of the per-row select contains only
a `break`, which exits the select statement, not the row loop; since Go's
select picks among ready cases, a later row's select can take the send
branch even though cancellation was already observed.  Here: cancellation is
done throughout, the select at row 0 takes the ctx.Done branch, the select
at row 1 takes the send branch, and row 1 is dispatched after the
observation at row 0. -/
theorem c2_break_only_exits_select :
    taskSourceObserved (fun _ => true) (fun i => decide (i = 0)) 0 = true
    ∧ dispatchedIndices 2 (fun _ => true) (fun i => decide (i = 0)) = [1] :=
  ⟨rfl, rfl⟩

/-- Claim C3 is false on the code: the sink adds the token count to the
running total only in the no-error branch.  Applying a failed Result
carrying 5 tokens leaves TotalTokens unchanged instead of increasing it by
5. -/
theorem c3_counterexample :
    (applyStats (initStats 1)
        { rowIndex := 0, rowData := [], results := [], error := some "boom", tokens := 5 }).totalTokens
      = (initStats 1).totalTokens
    ∧ ¬ ((applyStats (initStats 1)
        { rowIndex := 0, rowData := [], results := [], error := some "boom", tokens := 5 }).totalTokens
      = (initStats 1).totalTokens + 5) :=
  ⟨rfl, by decide⟩

/-- Claim C3 as amended: the Result Sink accumulates the cost metric only
for Results without a failure marker; applying a failed Result leaves the
total cost unchanged and increments only the failed counter. -/
theorem c3_amended (s : ProcessingStats) (r : ProcessingResult) (h : ¬ r.error = none) :
    (applyStats s r).totalTokens = s.totalTokens
    ∧ (applyStats s r).failedRows = s.failedRows + 1
    ∧ (applyStats s r).completedRows = s.completedRows := by
  simp [applyStats, h]

/-- Witness for c3_amended at a concrete failed Result. -/
theorem c3_amended_witness :
    (¬ ({ rowIndex := 0, rowData := [], results := [], error := some "e", tokens := 7 } : ProcessingResult).error = none)
    ∧ ((applyStats (initStats 2)
          { rowIndex := 0, rowData := [], results := [], error := some "e", tokens := 7 }).totalTokens
        = (initStats 2).totalTokens
      ∧ (applyStats (initStats 2)
          { rowIndex := 0, rowData := [], results := [], error := some "e", tokens := 7 }).failedRows
        = (initStats 2).failedRows + 1
      ∧ (applyStats (initStats 2)
          { rowIndex := 0, rowData := [], results := [], error := some "e", tokens := 7 }).completedRows
        = (initStats 2).completedRows) :=
  ⟨by decide, c3_amended (initStats 2) _ (by decide)⟩

/-- Claim C4 is false on the code: when the result channel closes, the sink
signals completion immediately; its action trace for that event is exactly
the completion signal, with no checkpoint write, unlike the cancellation
path. -/
theorem c4_counterexample :
    (collectResultsRun ["h"] [] 100 "out.csv"
        { rows := [], stats := initStats 0, processedCount := 0 }
        [SinkEvent.chanClosed]).2 = [SinkAction.signalDone] := rfl

/-- Claim C4 as amended: only the cancellation path performs a final
checkpoint write before signaling completion; the closed-channel path
signals completion without a final checkpoint (the final artifact is
written separately by the caller). -/
theorem c4_amended (headers : List String) (specs : List ColumnSpec)
    (batchSize : Nat) (outputFile : String) (s : SinkState) (es : List SinkEvent)
    (hes : ∀ e ∈ es, e.isTerminal = false) :
    (collectResultsRun headers specs batchSize outputFile s (es ++ [SinkEvent.ctxDone])).2
      = (collectResultsRun headers specs batchSize outputFile s es).2
        ++ [SinkAction.save (checkpointContent outputFile headers specs
              (collectResultsRun headers specs batchSize outputFile s es).1.rows),
            SinkAction.signalDone]
    ∧ (collectResultsRun headers specs batchSize outputFile s (es ++ [SinkEvent.chanClosed])).2
      = (collectResultsRun headers specs batchSize outputFile s es).2
        ++ [SinkAction.signalDone] := by
  constructor
  · rw [collectResultsRun_append headers specs batchSize outputFile s es _ hes]
    simp [collectResultsRun]
  · rw [collectResultsRun_append headers specs batchSize outputFile s es _ hes]
    simp [collectResultsRun]

/-- Witness for c4_amended on a one-tick event prefix. -/
theorem c4_amended_witness :
    (∀ e ∈ [SinkEvent.timerTick], SinkEvent.isTerminal e = false)
    ∧ ((collectResultsRun ["h"] [{ name := "c", dataType := "string" }] 100 "o.csv"
          { rows := [["a", ""]], stats := initStats 1, processedCount := 0 }
          ([SinkEvent.timerTick] ++ [SinkEvent.ctxDone])).2
        = (collectResultsRun ["h"] [{ name := "c", dataType := "string" }] 100 "o.csv"
            { rows := [["a", ""]], stats := initStats 1, processedCount := 0 }
            [SinkEvent.timerTick]).2
          ++ [SinkAction.save (checkpointContent "o.csv" ["h"] [{ name := "c", dataType := "string" }]
                (collectResultsRun ["h"] [{ name := "c", dataType := "string" }] 100 "o.csv"
                  { rows := [["a", ""]], stats := initStats 1, processedCount := 0 }
                  [SinkEvent.timerTick]).1.rows),
              SinkAction.signalDone]
      ∧ (collectResultsRun ["h"] [{ name := "c", dataType := "string" }] 100 "o.csv"
          { rows := [["a", ""]], stats := initStats 1, processedCount := 0 }
          ([SinkEvent.timerTick] ++ [SinkEvent.chanClosed])).2
        = (collectResultsRun ["h"] [{ name := "c", dataType := "string" }] 100 "o.csv"
            { rows := [["a", ""]], stats := initStats 1, processedCount := 0 }
            [SinkEvent.timerTick]).2
          ++ [SinkAction.signalDone]) :=
  ⟨by decide,
   c4_amended ["h"] [{ name := "c", dataType := "string" }] 100 "o.csv"
     { rows := [["a", ""]], stats := initStats 1, processedCount := 0 }
     [SinkEvent.timerTick] (by decide)⟩

/-- Claim C6: when the Row Transform invocation for a task fails, the worker
emits a Result that carries the failure marker and maps every declared
target column to the sentinel string "ERROR: " followed by the error text;
and a failure never aborts the run: the worker pool still emits one Result
per non-dropped dispatched task whatever the transform outcomes are. -/
theorem c6_failure_sentinel (specs : List ColumnSpec) (task : ProcessingTask) (e : String) :
    (mkWorkerResult specs task (Except.error e)).error = some e
    ∧ (∀ spec, spec ∈ specs →
        (mkWorkerResult specs task (Except.error e)).results.lookup spec.name
          = some ("ERROR: " ++ e))
    ∧ ∀ (headers : List String) (rows : List (List String)) (done choice dropped : Nat → Bool)
        (transform : Nat → Except String (List (String × String) × Nat)),
        (emittedResults headers rows specs done choice dropped transform).length
          = ((dispatchedIndices rows.length done choice).filter fun i => !dropped i).length := by
  refine ⟨rfl, fun spec h => ?_, fun _ _ _ _ _ _ => ?_⟩
  · simpa [mkWorkerResult] using lookup_map_const specs ("ERROR: " ++ e) spec h
  · simp [emittedResults]

/-- Witness for c6_failure_sentinel at a concrete spec list and error. -/
theorem c6_failure_sentinel_witness :
    ({ name := "c", dataType := "string" } : ColumnSpec)
        ∈ ([{ name := "c", dataType := "string" }] : List ColumnSpec)
    ∧ (mkWorkerResult [{ name := "c", dataType := "string" }]
          { rowIndex := 0, rowData := [] } (Except.error "x")).results.lookup
        (ColumnSpec.name { name := "c", dataType := "string" }) = some ("ERROR: " ++ "x") :=
  ⟨List.mem_singleton.mpr rfl,
   (c6_failure_sentinel [{ name := "c", dataType := "string" }]
     { rowIndex := 0, rowData := [] } "x").2.1 _ (List.mem_singleton.mpr rfl)⟩

/-- Claim C8: checkpointing is idempotent.  Two consecutive checkpoint
writes of the sink with no Result applied in between (two ticker fires in a
row) write byte-identical table content, the deterministic serialization of
the headers, the column specs and the current output table. -/
theorem c8_checkpoint_idempotent (headers : List String) (specs : List ColumnSpec)
    (batchSize : Nat) (outputFile : String) (s : SinkState) (es : List SinkEvent) :
    (collectResultsRun headers specs batchSize outputFile s
        (SinkEvent.timerTick :: SinkEvent.timerTick :: es)).2
      = SinkAction.save (checkpointContent outputFile headers specs s.rows)
        :: SinkAction.save (checkpointContent outputFile headers specs s.rows)
        :: (collectResultsRun headers specs batchSize outputFile s es).2 := rfl

/-- Claim C10: columnIndexToLetter implements bijective base-26 spreadsheet
column naming (0 is "A", 25 is "Z", 26 is "AA", 701 is "ZZ", 702 is "AAA")
and is injective, so the Excel checkpoint writer never addresses two
distinct column indices to the same spreadsheet column. -/
theorem c10_column_letters :
    columnIndexToLetter 0 = "A" ∧ columnIndexToLetter 25 = "Z"
    ∧ columnIndexToLetter 26 = "AA" ∧ columnIndexToLetter 701 = "ZZ"
    ∧ columnIndexToLetter 702 = "AAA"
    ∧ Function.Injective columnIndexToLetter := by
  refine ⟨by simp [columnIndexToLetter], by simp [columnIndexToLetter],
    by simp [columnIndexToLetter], by simp [columnIndexToLetter],
    by simp [columnIndexToLetter], ?_⟩
  intro a b hab
  have ha := stringVal_columnIndexToLetter a
  rw [hab, stringVal_columnIndexToLetter] at ha
  omega

/-- Witness for c10_column_letters at column index 26. -/
theorem c10_column_letters_witness : columnIndexToLetter 26 = "AA" :=
  c10_column_letters.2.2.1

/-- Claim C1 is false on the code for cancelled runs: with cancellation in
force, the task for row 0 is dispatched (its select takes the send branch),
but the worker that pulls it observes ctx.Done right after and returns
without sending any Result, a schedule the worker's select-with-default
allows only under cancellation (DropsOnlyUnderCancel holds).  Zero Results
exist for the dispatched task and at termination completed + failed = 0
while one task was sent. -/
theorem c1_counterexample :
    DropsOnlyUnderCancel (fun _ => true) (fun _ => true)
    ∧ emittedResults ["h"] [["x"]] [{ name := "c", dataType := "string" }]
        (fun _ => true) (fun _ => false) (fun _ => true)
        (fun _ => Except.ok ([("c", "v")], 2)) = []
    ∧ (dispatchedIndices 1 (fun _ => true) (fun _ => false)).length = 1
    ∧ ¬ ((sinkStats 1 []).completedRows + (sinkStats 1 []).failedRows
          = (dispatchedIndices 1 (fun _ => true) (fun _ => false)).length) :=
  ⟨fun _ _ => ⟨0, rfl⟩, rfl, rfl, by decide⟩

/-- Claim C1 as amended: in a run in which cancellation never fires, the
worker pool emits exactly one Result per dispatched task, the sink drains
them all, and completed + failed at termination equals the number of tasks
sent, which is the total row count; under cancellation a dispatched task
may yield no Result, so the sum can fall short of the dispatched count. -/
theorem c1_amended (headers : List String) (rows : List (List String))
    (specs : List ColumnSpec) (done choice dropped : Nat → Bool)
    (transform : Nat → Except String (List (String × String) × Nat))
    (applied : List ProcessingResult)
    (hnc : CancelFree done)
    (hv : DropsOnlyUnderCancel done dropped)
    (hdrain : applied.Perm (emittedResults headers rows specs done choice dropped transform)) :
    (emittedResults headers rows specs done choice dropped transform).map ProcessingResult.rowIndex
      = dispatchedIndices rows.length done choice
    ∧ (sinkStats rows.length applied).completedRows
        + (sinkStats rows.length applied).failedRows
      = (dispatchedIndices rows.length done choice).length
    ∧ (dispatchedIndices rows.length done choice).length = rows.length := by
  have hdrop : ∀ i, dropped i = false := by
    intro i
    cases hd : dropped i
    · rfl
    · obtain ⟨j, hj⟩ := hv i hd
      rw [hnc j] at hj
      cases hj
  have hfilter : ((dispatchedIndices rows.length done choice).filter fun i => !dropped i)
      = dispatchedIndices rows.length done choice :=
    List.filter_eq_self.mpr fun a _ => by simp [hdrop a]
  have hmap : (emittedResults headers rows specs done choice dropped transform).map
        ProcessingResult.rowIndex
      = dispatchedIndices rows.length done choice := by
    rw [emittedResults_map_rowIndex, hfilter]
  have hdisp : dispatchedIndices rows.length done choice = List.range rows.length := by
    unfold dispatchedIndices
    exact List.filter_eq_self.mpr fun a _ => by simp [taskSourceObserved, hnc a]
  refine ⟨hmap, ?_, by rw [hdisp, List.length_range]⟩
  have hsum := applyStats_sum (initStats rows.length) applied
  have h0 : (initStats rows.length).completedRows = 0 := rfl
  have h1 : (initStats rows.length).failedRows = 0 := rfl
  rw [h0, h1] at hsum
  have hlen1 : applied.length
      = (emittedResults headers rows specs done choice dropped transform).length :=
    hdrain.length_eq
  have hlen2 := congrArg List.length hmap
  rw [List.length_map] at hlen2
  simp only [sinkStats]
  omega

/-- Witness for c1_amended on a one-row cancellation-free run. -/
theorem c1_amended_witness :
    CancelFree (fun _ => false)
    ∧ DropsOnlyUnderCancel (fun _ => false) (fun _ => false)
    ∧ ((emittedResults ["h"] [["x"]] [{ name := "c", dataType := "string" }]
          (fun _ => false) (fun _ => false) (fun _ => false)
          (fun _ => Except.ok ([("c", "v")], 3))).map ProcessingResult.rowIndex
        = dispatchedIndices 1 (fun _ => false) (fun _ => false))
    ∧ ((sinkStats 1 (emittedResults ["h"] [["x"]] [{ name := "c", dataType := "string" }]
          (fun _ => false) (fun _ => false) (fun _ => false)
          (fun _ => Except.ok ([("c", "v")], 3)))).completedRows
        + (sinkStats 1 (emittedResults ["h"] [["x"]] [{ name := "c", dataType := "string" }]
            (fun _ => false) (fun _ => false) (fun _ => false)
            (fun _ => Except.ok ([("c", "v")], 3)))).failedRows
        = (dispatchedIndices 1 (fun _ => false) (fun _ => false)).length)
    ∧ (dispatchedIndices 1 (fun _ => false) (fun _ => false)).length = 1 := by
  have h := c1_amended ["h"] [["x"]] [{ name := "c", dataType := "string" }]
    (fun _ => false) (fun _ => false) (fun _ => false)
    (fun _ => Except.ok ([("c", "v")], 3))
    (emittedResults ["h"] [["x"]] [{ name := "c", dataType := "string" }]
      (fun _ => false) (fun _ => false) (fun _ => false)
      (fun _ => Except.ok ([("c", "v")], 3)))
    (fun _ => rfl) (fun _ hx => Bool.noConfusion hx) (List.Perm.refl _)
  exact ⟨fun _ => rfl, fun _ hx => Bool.noConfusion hx, h.1, h.2.1, h.2.2⟩

/-- Claim C5 is false on the code for a row with more cells than there are
headers: the reserved target range starts at the header count, so the
target writes overwrite the surplus original cells.  Here a one-header
table with a two-cell row has its second original cell "b" replaced by the
produced value "V". -/
theorem c5_counterexample :
    applyResult ["h"] [{ name := "c", dataType := "string" }]
        (enrichedInit [["a", "b"]] [{ name := "c", dataType := "string" }])
        { rowIndex := 0, rowData := [], results := [("c", "V")], error := none, tokens := 0 }
      = [["a", "V", ""]]
    ∧ ¬ (((applyResult ["h"] [{ name := "c", dataType := "string" }]
          (enrichedInit [["a", "b"]] [{ name := "c", dataType := "string" }])
          { rowIndex := 0, rowData := [], results := [("c", "V")], error := none, tokens := 0 }).getD 0 []).getD 1 ""
        = (([["a", "b"]] : List (List String)).getD 0 []).getD 1 "") :=
  ⟨by decide, by decide⟩

/-- Claim C5 as amended: for input tables whose rows all have exactly as
many cells as there are headers (as CSV input guarantees), the output table
after any sequence of applied Results has exactly as many rows as the
input, in the original order, and the original columns of every row are
unchanged: each output row's first header-count cells equal the original
row, since Result application only writes the reserved target-column
range. -/
theorem c5_amended (headers : List String) (rows : List (List String))
    (specs : List ColumnSpec) (applied : List ProcessingResult)
    (huni : ∀ row ∈ rows, row.length = headers.length)
    (hidx : ∀ r ∈ applied, r.rowIndex < rows.length) :
    (sinkTable headers specs rows applied).length = rows.length
    ∧ ∀ i, i < rows.length →
        ((sinkTable headers specs rows applied).getD i []).take headers.length
          = rows.getD i [] := by
  have hbase : ∀ i, i < rows.length →
      ((enrichedInit rows specs).getD i []).take headers.length = rows.getD i [] := by
    intro i hi
    have hmem : rows.getD i [] ∈ rows := by
      rw [List.getD_eq_getElem _ _ hi]
      exact List.getElem_mem hi
    have hrl : (rows.getD i []).length = headers.length := huni _ hmem
    rw [enrichedInit_getD rows specs i hi, ← hrl, List.take_left]
  have hinv := sinkTable_fold_invariant headers specs rows.length applied
    (enrichedInit rows specs) (by simp [enrichedInit]) hidx
  exact ⟨hinv.1, fun i hi => by rw [sinkTable, hinv.2 i hi, hbase i hi]⟩

/-- Witness for c5_amended on a one-row, one-header, one-target-column
table. -/
theorem c5_amended_witness :
    (∀ row ∈ ([["a"]] : List (List String)), row.length = (["h"] : List String).length)
    ∧ (∀ r ∈ ([{ rowIndex := 0, rowData := [], results := [("c", "v")], error := none, tokens := 1 }] : List ProcessingResult),
        r.rowIndex < ([["a"]] : List (List String)).length)
    ∧ (sinkTable ["h"] [{ name := "c", dataType := "string" }] [["a"]]
        [{ rowIndex := 0, rowData := [], results := [("c", "v")], error := none, tokens := 1 }]).length
      = ([["a"]] : List (List String)).length
    ∧ ((sinkTable ["h"] [{ name := "c", dataType := "string" }] [["a"]]
        [{ rowIndex := 0, rowData := [], results := [("c", "v")], error := none, tokens := 1 }]).getD 0 []).take
          (["h"] : List String).length
      = ([["a"]] : List (List String)).getD 0 [] :=
  ⟨by decide, by decide,
   (c5_amended ["h"] [["a"]] [{ name := "c", dataType := "string" }]
     [{ rowIndex := 0, rowData := [], results := [("c", "v")], error := none, tokens := 1 }]
     (by decide) (by decide)).1,
   (c5_amended ["h"] [["a"]] [{ name := "c", dataType := "string" }]
     [{ rowIndex := 0, rowData := [], results := [("c", "v")], error := none, tokens := 1 }]
     (by decide) (by decide)).2 0 (by decide)⟩

/-- Claim C7: at every point of the sink's run, completed + failed is at
most the total row count: the counters start at zero, each applied Result
increments exactly one of the two by one, and the applied Results are a
sub-multiset of the emitted ones, which carry pairwise distinct row
indices drawn from the dispatched rows, so at most one Result is ever
applied per input row. -/
theorem c7_counters_bounded (headers : List String) (rows : List (List String))
    (specs : List ColumnSpec) (done choice dropped : Nat → Bool)
    (transform : Nat → Except String (List (String × String) × Nat))
    (applied : List ProcessingResult)
    (happ : applied.Subperm (emittedResults headers rows specs done choice dropped transform)) :
    (∀ pre suf, applied = pre ++ suf →
      (sinkStats rows.length pre).completedRows + (sinkStats rows.length pre).failedRows
        ≤ rows.length)
    ∧ (applied.map ProcessingResult.rowIndex).Nodup := by
  have hlen : applied.length ≤ rows.length := by
    have h1 : applied.length
        ≤ (emittedResults headers rows specs done choice dropped transform).length :=
      happ.length_le
    have h2 : (emittedResults headers rows specs done choice dropped transform).length
        ≤ (dispatchedIndices rows.length done choice).length := by
      simpa [emittedResults] using
        List.length_filter_le (fun i => !dropped i) (dispatchedIndices rows.length done choice)
    have h3 : (dispatchedIndices rows.length done choice).length ≤ rows.length := by
      simpa using List.length_filter_le
        (fun i => !(taskSourceObserved done choice i)) (List.range rows.length)
    omega
  constructor
  · intro pre suf hps
    have hsum := applyStats_sum (initStats rows.length) pre
    have h0 : (initStats rows.length).completedRows = 0 := rfl
    have h1 : (initStats rows.length).failedRows = 0 := rfl
    rw [h0, h1] at hsum
    have hple : pre.length ≤ applied.length := by
      rw [hps, List.length_append]
      omega
    simp only [sinkStats]
    omega
  · obtain ⟨l, hp, hs⟩ := happ
    have hemit : ((emittedResults headers rows specs done choice dropped transform).map
        ProcessingResult.rowIndex).Nodup := by
      rw [emittedResults_map_rowIndex]
      exact List.Nodup.filter _ (dispatchedIndices_nodup rows.length done choice)
    have hlnodup : (l.map ProcessingResult.rowIndex).Nodup :=
      List.Nodup.sublist (hs.map ProcessingResult.rowIndex) hemit
    exact ((hp.map ProcessingResult.rowIndex).nodup_iff).mp hlnodup

/-- Witness for c7_counters_bounded on a one-row run with the sink applying
everything the workers emitted. -/
theorem c7_counters_bounded_witness :
    (emittedResults ["h"] [["x"]] [{ name := "c", dataType := "string" }]
        (fun _ => false) (fun _ => false) (fun _ => false)
        (fun _ => Except.ok ([("c", "v")], 4))).Subperm
      (emittedResults ["h"] [["x"]] [{ name := "c", dataType := "string" }]
        (fun _ => false) (fun _ => false) (fun _ => false)
        (fun _ => Except.ok ([("c", "v")], 4)))
    ∧ (sinkStats 1 (emittedResults ["h"] [["x"]] [{ name := "c", dataType := "string" }]
        (fun _ => false) (fun _ => false) (fun _ => false)
        (fun _ => Except.ok ([("c", "v")], 4)))).completedRows
      + (sinkStats 1 (emittedResults ["h"] [["x"]] [{ name := "c", dataType := "string" }]
          (fun _ => false) (fun _ => false) (fun _ => false)
          (fun _ => Except.ok ([("c", "v")], 4)))).failedRows ≤ 1
    ∧ ((emittedResults ["h"] [["x"]] [{ name := "c", dataType := "string" }]
        (fun _ => false) (fun _ => false) (fun _ => false)
        (fun _ => Except.ok ([("c", "v")], 4))).map ProcessingResult.rowIndex).Nodup := by
  have h := c7_counters_bounded ["h"] [["x"]] [{ name := "c", dataType := "string" }]
    (fun _ => false) (fun _ => false) (fun _ => false)
    (fun _ => Except.ok ([("c", "v")], 4))
    (emittedResults ["h"] [["x"]] [{ name := "c", dataType := "string" }]
      (fun _ => false) (fun _ => false) (fun _ => false)
      (fun _ => Except.ok ([("c", "v")], 4)))
    (List.Subperm.refl _)
  exact ⟨List.Subperm.refl _, h.1 _ [] (List.append_nil _).symm, h.2⟩

/-- Claim C9 is partly false on the code: its central equivalence holds,
but its parenthetical "the first target-column write indexes past the end"
does not.  With three headers, a two-cell row and two target columns, the
row is shorter than the headers, yet the first target write (index 3) is in
bounds of the enriched row (length 4); only the second write runs off the
end. -/
theorem c9_counterexample :
    (([["x", "y"]] : List (List String)).getD 0 []).length
        < (["a", "b", "c"] : List String).length
    ∧ (["a", "b", "c"] : List String).length + 0
        < ((enrichedInit [["x", "y"]]
            [{ name := "c1", dataType := "string" },
             { name := "c2", dataType := "string" }]).getD 0 []).length :=
  ⟨by decide, by decide⟩

/-- Claim C9 as amended: every sink write for a row is in bounds of its
enriched row exactly when the original row has at least as many cells as
there are headers; and for a ragged row with fewer cells than headers it is
the last target-column write (not necessarily the first) that indexes past
the end of the enriched row slice. -/
theorem c9_amended (headers : List String) (specs : List ColumnSpec) (row : List String)
    (hs : specs ≠ []) :
    ((∀ i, i < specs.length →
        headers.length + i < ((enrichedInit [row] specs).getD 0 []).length)
      ↔ headers.length ≤ row.length)
    ∧ (row.length < headers.length →
        ¬ (headers.length + (specs.length - 1)
            < ((enrichedInit [row] specs).getD 0 []).length)) := by
  have hlen : ((enrichedInit [row] specs).getD 0 []).length = row.length + specs.length := by
    simp [enrichedInit]
  have hpos : 0 < specs.length := List.length_pos.mpr hs
  rw [hlen]
  constructor
  · constructor
    · intro h
      have := h (specs.length - 1) (by omega)
      omega
    · intro h i hi
      omega
  · intro h
    omega

/-- Witness for c9_amended: two headers, a one-cell row and one target
column, where the (single) last write is out of bounds. -/
theorem c9_amended_witness :
    ([{ name := "c", dataType := "string" }] : List ColumnSpec) ≠ []
    ∧ ¬ ((["a", "b"] : List String).length
          + (([{ name := "c", dataType := "string" }] : List ColumnSpec).length - 1)
        < ((enrichedInit [["x"]] [{ name := "c", dataType := "string" }]).getD 0 []).length) :=
  ⟨by decide,
   (c9_amended ["a", "b"] [{ name := "c", dataType := "string" }] ["x"] (by decide)).2 (by decide)⟩

end ProcessData
